import Mathlib

/-!
Shallow embedding of `src/continuous_stock.py`: a polling loop that, per
round, resolves each tracked company name to a ticker, fetches the last
price and the day high from a quote endpoint, timestamps a reading,
appends it to a bounded deque, and rewrites a CSV snapshot file from the
deque after each round.  External effects (HTTP fetch, wall clock, file
write success) are an explicit environment; state (fetch-call counter,
clock counter, buffer, file contents, logs) is threaded explicitly.
-/

namespace ContinuousStock

/-- Shape of the quote object extracted from the endpoint JSON at
`optionChain.result[0].quote`; a `none` field models a missing key. -/
structure QuoteShape where
  regularMarketPrice : Option Int
  regularMarketDayHigh : Option Int
deriving DecidableEq, Repr

/-- Error taxonomy: `lookupFailure` is the `KeyError` from the ticker
dictionary, `transportFailure` a failed HTTP fetch, `shapeFailure` a
missing JSON key, `persistenceFailure` a failed CSV write. -/
inductive StockError where
  | lookupFailure (company : String)
  | transportFailure (url : String)
  | shapeFailure (url : String) (key : String)
  | persistenceFailure
deriving DecidableEq, Repr

instance {ε α : Type} [DecidableEq ε] [DecidableEq α] : DecidableEq (Except ε α) :=
  fun a b =>
    match a, b with
    | Except.error e1, Except.error e2 =>
      if h : e1 = e2 then isTrue (by rw [h])
      else isFalse (by intro hc; cases hc; exact h rfl)
    | Except.ok v1, Except.ok v2 =>
      if h : v1 = v2 then isTrue (by rw [h])
      else isFalse (by intro hc; cases hc; exact h rfl)
    | Except.error _, Except.ok _ => isFalse (by intro hc; cases hc)
    | Except.ok _, Except.error _ => isFalse (by intro hc; cases hc)

/-- External world: `fetch` maps the index of the outbound call and its URL
to a response (or a transport error), `now` maps the index of the
`datetime.now()` call to a formatted time string, `persistOk` says whether
the snapshot write at the end of a given completed round succeeds. -/
structure Env where
  fetch : Nat → String → Except StockError QuoteShape
  now : Nat → String
  persistOk : Nat → Bool

/-- The dictionary literal in `lookup_ticker` (lines 50-61). -/
def stocks_dictionary : List (String × String) :=
  [("Cadence Design Systems", "CDNS"),
   ("Synopys", "SNPS"),
   ("Tractor Supply Company", "TSCO"),
   ("Lululemon Ahtletica Inc.", "LULU"),
   ("Arch Capital Group Ltd.", "ACGL"),
   ("Costco Wholesale Corporation", "COST"),
   ("Brown & Brown Inc.", "BRO"),
   ("Thermo Fisher Scientific Inc.", "TMO"),
   ("CDW Corporation", "CDW"),
   ("Intuit Inc.", "INTU")]

/-- First-match association lookup, as a Python dict subscript on the
literal above behaves (keys are distinct). -/
def assocLookup : List (String × String) → String → Option String
  | [], _ => none
  | (k, v) :: rest, c => if c = k then some v else assocLookup rest c

/-- Function `lookup_ticker` (lines 49-63): dict subscript; a missing key raises
`KeyError` (a `LookupError`), modelled as `Except.error`. -/
def lookup_ticker (company : String) : Except StockError String :=
  match assocLookup stocks_dictionary company with
  | some t => Except.ok t
  | none => Except.error (StockError.lookupFailure company)

/-- The quote-options endpoint URL built for a ticker (lines 67 and 78). -/
def stock_api_url (ticker : String) : String :=
  "https://query1.finance.yahoo.com/v7/finance/options/" ++ ticker

/-- Navigate the fetched JSON to one numeric field; a missing key is a
shape failure (the Python `KeyError` on the nested subscripts). -/
def extractField (field : QuoteShape → Option Int) (key url : String)
    (resp : Except StockError QuoteShape) : Except StockError Int :=
  match resp with
  | Except.error e => Except.error e
  | Except.ok shape =>
    match field shape with
    | none => Except.error (StockError.shapeFailure url key)
    | some v => Except.ok v

/-- Function `get_stock_price` (lines 65-73): one fetch of the options endpoint,
extracting `regularMarketPrice`.  Returns the result, the list of URLs
fetched by this invocation, and the advanced fetch-call counter. -/
def get_stock_price (env : Env) (k : Nat) (ticker : String) :
    Except StockError Int × List String × Nat :=
  (extractField QuoteShape.regularMarketPrice "regularMarketPrice"
      (stock_api_url ticker) (env.fetch k (stock_api_url ticker)),
   [stock_api_url ticker], k + 1)

/-- Function `get_daily_high` (lines 76-83): one fetch of the same options endpoint,
extracting `regularMarketDayHigh`. -/
def get_daily_high (env : Env) (k : Nat) (ticker : String) :
    Except StockError Int × List String × Nat :=
  (extractField QuoteShape.regularMarketDayHigh "regularMarketDayHigh"
      (stock_api_url ticker) (env.fetch k (stock_api_url ticker)),
   [stock_api_url ticker], k + 1)

/-- One buffered reading: the dict built at lines 132-137, with keys
Company, Ticker, Time, Price (the fetched day high is discarded). -/
structure StockRecord where
  company : String
  ticker : String
  time : String
  price : Int
deriving DecidableEq, Repr

/-- Append `records_deque.append` on a `deque(maxlen := maxlen)` (lines 116 and
138): keep the most recent `maxlen` elements, evicting from the front. -/
def dequeAppend {α : Type} (maxlen : Nat) (q : List α) (x : α) : List α :=
  List.drop (q.length + 1 - maxlen) (q ++ [x])

/-- The body of the inner `for company in companies` loop for one company
(lines 128-138, up to the append): resolve the ticker, fetch price then
day high, stamp the time, build the record.  Returns the record (or the
first error), the fetched URLs, and the advanced fetch and clock
counters. -/
def processCompany (env : Env) (company : String) (k ni : Nat) :
    Except StockError StockRecord × List String × Nat × Nat :=
  match lookup_ticker company with
  | Except.error e => (Except.error e, [], k, ni)
  | Except.ok ticker =>
    let sp := get_stock_price env k ticker
    match sp.1 with
    | Except.error e => (Except.error e, sp.2.1, sp.2.2, ni)
    | Except.ok price =>
      let dh := get_daily_high env sp.2.2 ticker
      match dh.1 with
      | Except.error e => (Except.error e, sp.2.1 ++ dh.2.1, dh.2.2, ni)
      | Except.ok _ =>
        (Except.ok { company := company, ticker := ticker,
                     time := env.now ni, price := price },
         sp.2.1 ++ dh.2.1, dh.2.2, ni + 1)

/-- The inner `for company in companies` loop of one round (lines
127-138): process each company in list order, appending each reading to
the deque; the first error aborts the round (the raised exception leaves
the remaining companies unprocessed and appends nothing for the failing
company). -/
def processRound (env : Env) (maxlen : Nat) :
    List String → Nat → Nat → List StockRecord →
      Except StockError Unit × List String × Nat × Nat × List StockRecord
  | [], k, ni, buf => (Except.ok (), [], k, ni, buf)
  | c :: rest, k, ni, buf =>
    let pc := processCompany env c k ni
    match pc.1 with
    | Except.error e => (Except.error e, pc.2.1, pc.2.2.1, pc.2.2.2, buf)
    | Except.ok rd =>
      let pr := processRound env maxlen rest pc.2.2.1 pc.2.2.2
                  (dequeAppend maxlen buf rd)
      (pr.1, pc.2.1 ++ pr.2.1, pr.2.2)

/-- True when pandas minimal quoting must quote a CSV field: it contains
the delimiter, the quote character, or a line break. -/
def csvNeedsQuote (s : String) : Bool :=
  s.data.any (fun c => c = ',' || c = '"' || c = '\n')

/-- Quote a CSV field, doubling embedded quote characters. -/
def csvQuote (s : String) : String :=
  "\"" ++ String.mk (s.data.foldl
    (fun acc c => acc ++ (if c = '"' then ['"', '"'] else [c])) [])
    ++ "\""

/-- Render one CSV field under pandas minimal quoting. -/
def csvField (s : String) : String :=
  if csvNeedsQuote s then csvQuote s else s

/-- The header `init_csv_file` (lines 86-90) writes: the empty DataFrame
with columns Company, Ticker, Time, Stock_Price serialized without an
index column. -/
def init_header : String := "Company,Ticker,Time,Stock_Price\n"

/-- Contents written by `init_csv_file`: the header row only. -/
def init_csv_file : String := init_header

/-- One CSV data row for a buffered reading, in the column order of the
record dict keys: Company, Ticker, Time, Price. -/
def recordRow (rd : StockRecord) : String :=
  csvField rd.company ++ "," ++ csvField rd.ticker ++ ","
    ++ csvField rd.time ++ "," ++ toString rd.price ++ "\n"

/-- Serialization `pd.DataFrame(records_deque).to_csv(fp, index=False, mode="w")`
(lines 141-144): the DataFrame columns come from the record dict keys
(Company, Ticker, Time, Price), then one row per buffered reading in
deque order.  An empty deque gives a DataFrame with no columns, whose
CSV text is a single newline. -/
def roundCsv (rds : List StockRecord) : String :=
  if rds.isEmpty then "\n"
  else "Company,Ticker,Time,Price\n" ++ String.join (rds.map recordRow)

/-- State threaded through `update_csv_stock`: counters for the fetch and
clock calls, the deque contents, the snapshot file contents (`none` while
the file does not exist), the URLs fetched so far, the errors logged by
the top-level guard, and how many rounds completed their write. -/
structure LoopState where
  fetchIdx : Nat
  nowIdx : Nat
  buffer : List StockRecord
  file : Option String
  fetchLog : List String
  errorLog : List StockError
  roundsCompleted : Nat
deriving Repr

/-- The per-round serialization step: the bytes written to the snapshot
file are a function of the deque contents alone; no other component of
the loop state (clock counter, fetch counter, previous file contents) is
consulted. -/
def writeSnapshot (s : LoopState) : String := roundCsv s.buffer

/-- The `for _ in range(num_updates)` loop (lines 126-148): run up to `n`
rounds.  A round that raises propagates to the top-level `except`, which
logs the error once and exits the loop; a completed round overwrites the
snapshot file with the serialized deque (a failed write is itself an
exception caught by the same guard). -/
def runRounds (env : Env) (maxlen : Nat) (companies : List String) :
    Nat → LoopState → LoopState
  | 0, s => s
  | n + 1, s =>
    let pr := processRound env maxlen companies s.fetchIdx s.nowIdx s.buffer
    match pr.1 with
    | Except.error e =>
      { s with
        fetchIdx := pr.2.2.1
        nowIdx := pr.2.2.2.1
        buffer := pr.2.2.2.2
        fetchLog := s.fetchLog ++ pr.2.1
        errorLog := s.errorLog ++ [e] }
    | Except.ok _ =>
      let s' : LoopState :=
        { s with
          fetchIdx := pr.2.2.1
          nowIdx := pr.2.2.2.1
          buffer := pr.2.2.2.2
          fetchLog := s.fetchLog ++ pr.2.1 }
      if env.persistOk s.roundsCompleted then
        runRounds env maxlen companies n
          { s' with
            file := some (writeSnapshot s')
            roundsCompleted := s.roundsCompleted + 1 }
      else
        { s' with errorLog := s.errorLog ++ [StockError.persistenceFailure] }

/-- The `companies` list (lines 96-107). -/
def companies : List String :=
  ["Cadence Design Systems",
   "Synopys",
   "Tractor Supply Company",
   "Lululemon Ahtletica Inc.",
   "Arch Capital Group Ltd.",
   "Costco Wholesale Corporation",
   "Brown & Brown Inc.",
   "Thermo Fisher Scientific Inc.",
   "CDW Corporation",
   "Intuit Inc."]

/-- Constant `update_interval = 60` (line 108). -/
def update_interval : Nat := 60

/-- Constant `total_runtime = 15 * 60` (line 109). -/
def total_runtime : Nat := 15 * 60

/-- Constant `num_updates = 100` (line 110): both the deque capacity and the number
of loop iterations. -/
def num_updates : Nat := 100

/-- Startup (lines 116-122): fresh empty deque, counters at zero; if the
snapshot file does not exist it is created holding only the header row,
otherwise it is left untouched. -/
def initialState (existing : Option String) : LoopState :=
  { fetchIdx := 0, nowIdx := 0, buffer := [],
    file := match existing with
            | none => some init_csv_file
            | some c => some c,
    fetchLog := [], errorLog := [], roundsCompleted := 0 }

/-- Function `update_csv_stock` (lines 92-151): initialize, then run `num_updates`
rounds over the fixed company list with a deque of capacity
`num_updates`, under the one top-level exception guard. -/
def update_csv_stock (env : Env) (existing : Option String) : LoopState :=
  runRounds env num_updates companies num_updates (initialState existing)

/-- A benign environment for concrete runs: every fetch returns a
well-shaped quote (price 101, day high 103), the clock at call `n` reads
`t` followed by `n`, and every snapshot write succeeds. -/
def envOK : Env :=
  { fetch := fun _ _ =>
      Except.ok { regularMarketPrice := some 101, regularMarketDayHigh := some 103 },
    now := fun n => "t" ++ toString n,
    persistOk := fun _ => true }

/-- Environment for the two-round capacity-2 scenario: same quotes as
`envOK`, but the clock reads `t1` for the two stamps of round 1 and `t2`
for the two stamps of round 2. -/
def envC2 : Env :=
  { fetch := fun _ _ =>
      Except.ok { regularMarketPrice := some 101, regularMarketDayHigh := some 103 },
    now := fun n => "t" ++ toString (n / 2 + 1),
    persistOk := fun _ => true }

/-- The tickers a round resolves, in company-list order (successful
lookups only; in an error-free round this is every company's ticker). -/
def roundTickers (cs : List String) : List String :=
  cs.filterMap (fun c => (lookup_ticker c).toOption)

/-- A fixed sample reading, used for concrete instantiations. -/
def sampleRecord : StockRecord :=
  { company := "Cadence Design Systems"
    ticker := "CDNS"
    time := "t0"
    price := 101 }

/-- First lemmas: association-list lookup misses exactly the names that
are not keys. -/
theorem assocLookup_eq_none {l : List (String × String)} {c : String}
    (h : c ∉ l.map Prod.fst) : assocLookup l c = none := by
  induction l with
  | nil => rfl
  | cons p rest ih =>
    obtain ⟨k, v⟩ := p
    simp only [List.map_cons, List.mem_cons, not_or] at h
    simp [assocLookup, h.1, ih h.2]

/-- C3: for every company name that is a key of the ticker dictionary,
`lookup_ticker` returns exactly its predefined ticker string; for every
name that is not a key it fails with the `LookupError`-class condition
(`StockError.lookupFailure`), rather than returning a value. -/
theorem C3_lookup_ticker_contract :
    (∀ c t, (c, t) ∈ stocks_dictionary → lookup_ticker c = Except.ok t)
    ∧ (∀ c, c ∉ stocks_dictionary.map Prod.fst →
        lookup_ticker c = Except.error (StockError.lookupFailure c)) := by
  constructor
  · intro c t h
    fin_cases h <;> decide
  · intro c h
    simp [lookup_ticker, assocLookup_eq_none h]

/-- Witness for C3 at concrete inputs: a present key resolves to its
ticker, and an absent name fails with `lookupFailure`. -/
theorem C3_lookup_ticker_contract_witness :
    lookup_ticker "Synopys" = Except.ok "SNPS"
    ∧ lookup_ticker "Nonexistent Corp" =
        Except.error (StockError.lookupFailure "Nonexistent Corp") :=
  ⟨C3_lookup_ticker_contract.1 "Synopys" "SNPS" (by decide),
   C3_lookup_ticker_contract.2 "Nonexistent Corp" (by decide)⟩

/-- C9: the per-round serialization step is a function of the buffer
contents alone: any two loop states with identical buffers (whatever
their clock counter, fetch counter, previous file contents or logs)
serialize to byte-identical snapshot text. -/
theorem C9_serialization_deterministic :
    ∀ s1 s2 : LoopState, s1.buffer = s2.buffer →
      writeSnapshot s1 = writeSnapshot s2 := by
  intro s1 s2 h
  simp [writeSnapshot, h]

/-- Witness for C9: two states agreeing only on the buffer serialize
identically. -/
theorem C9_serialization_deterministic_witness :
    writeSnapshot
      { fetchIdx := 5
        nowIdx := 7
        buffer := [sampleRecord]
        file := none
        fetchLog := ["u"]
        errorLog := [StockError.persistenceFailure]
        roundsCompleted := 3 }
    = writeSnapshot
      { fetchIdx := 0
        nowIdx := 0
        buffer := [sampleRecord]
        file := some "old"
        fetchLog := []
        errorLog := []
        roundsCompleted := 0 } :=
  C9_serialization_deterministic _ _ rfl

/-- C6: when the snapshot file does not exist at startup, it is created
holding exactly the header row `Company,Ticker,Time,Stock_Price` and
nothing else, and it still holds exactly that before any round has run. -/
theorem C6_init_creates_header_file :
    (initialState none).file = some "Company,Ticker,Time,Stock_Price\n"
    ∧ ∀ env m cs, (runRounds env m cs 0 (initialState none)).file =
        some "Company,Ticker,Time,Stock_Price\n" :=
  ⟨rfl, fun _ _ _ => rfl⟩

/-- C1 (code bug): a completed round rewrites the snapshot from the
buffer, but its header row is `Company,Ticker,Time,Price` (the record
dict keys of line 136), not the `Company,Ticker,Time,Stock_Price` header
that `init_csv_file` itself writes; the two headers differ.  Evaluated
at a concrete error-free one-company round. -/
theorem C1_round_header_mismatch :
    (runRounds envOK 2 ["Cadence Design Systems"] 1 (initialState none)).file =
      some ("Company,Ticker,Time,Price\n" ++ "Cadence Design Systems,CDNS,t0,101\n")
    ∧ (initialState none).file = some "Company,Ticker,Time,Stock_Price\n"
    ∧ ("Company,Ticker,Time,Price" : String) ≠ "Company,Ticker,Time,Stock_Price" :=
  ⟨by decide, rfl, by decide⟩

/-- A bounded-deque append never leaves more than `maxlen` elements. -/
theorem dequeAppend_length_le {α : Type} (maxlen : Nat) (q : List α) (x : α) :
    (dequeAppend maxlen q x).length ≤ maxlen := by
  simp only [dequeAppend, List.length_drop, List.length_append,
    List.length_singleton]
  omega

/-- A round never grows the buffer past the deque capacity: if the buffer
respects the bound on entry, it respects it after the round (whether the
round completes or aborts mid-way). -/
theorem processRound_buffer_le (env : Env) (m : Nat) (cs : List String) :
    ∀ (k ni : Nat) (buf : List StockRecord), buf.length ≤ m →
      (processRound env m cs k ni buf).2.2.2.2.length ≤ m := by
  induction cs with
  | nil => intro k ni buf h; exact h
  | cons c rest ih =>
    intro k ni buf h
    simp only [processRound]
    split
    · exact h
    · exact ih _ _ _ (dequeAppend_length_le m buf _)

/-- The loop never grows the buffer past the deque capacity. -/
theorem runRounds_buffer_le (env : Env) (m : Nat) (cs : List String) :
    ∀ (n : Nat) (s : LoopState), s.buffer.length ≤ m →
      (runRounds env m cs n s).buffer.length ≤ m := by
  intro n
  induction n with
  | zero => intro s h; exact h
  | succ n ih =>
    intro s h
    simp only [runRounds]
    split
    · exact processRound_buffer_le env m cs _ _ _ h
    · split
      · exact ih _ (processRound_buffer_le env m cs _ _ _ h)
      · exact processRound_buffer_le env m cs _ _ _ h

/-- C2: the bounded history buffer respects its capacity and evicts FIFO.
First, in the actual loop the buffer never exceeds the configured
capacity `num_updates`; second, a deque append never exceeds the
capacity; third, appending to a full deque of positive capacity drops
exactly the oldest element and keeps the relative order of the rest plus
the new element; fourth, the concrete capacity-2 two-company two-round
scenario ends with buffer `[(A,t2),(B,t2)]`. -/
theorem C2_bounded_fifo :
    (∀ env existing,
      (update_csv_stock env existing).buffer.length ≤ num_updates)
    ∧ (∀ (N : Nat) (q : List StockRecord) (x : StockRecord),
        (dequeAppend N q x).length ≤ N)
    ∧ (∀ (N : Nat) (q : List StockRecord) (x : StockRecord),
        0 < N → q.length = N → dequeAppend N q x = q.tail ++ [x])
    ∧ (runRounds envC2 2 ["Cadence Design Systems", "Synopys"] 2
          (initialState none)).buffer =
        [{ company := "Cadence Design Systems", ticker := "CDNS",
           time := "t2", price := 101 },
         { company := "Synopys", ticker := "SNPS",
           time := "t2", price := 101 }] := by
  refine ⟨?_, ?_, ?_, by decide⟩
  · intro env existing
    exact runRounds_buffer_le env num_updates companies num_updates
      (initialState existing) (by simp [initialState])
  · intro N q x
    exact dequeAppend_length_le N q x
  · intro N q x hN hlen
    match q with
    | [] => simp at hlen; omega
    | a :: as =>
      have h1 : as.length + 1 + 1 - N = 1 := by
        simp only [List.length_cons] at hlen
        omega
      simp [dequeAppend, h1]

/-- Witness for C2: appending a third reading to a full capacity-2 deque
evicts exactly the oldest. -/
theorem C2_bounded_fifo_witness :
    dequeAppend 2 [sampleRecord, sampleRecord]
        { company := "Synopys", ticker := "SNPS", time := "t1", price := 7 } =
      [sampleRecord,
       { company := "Synopys", ticker := "SNPS", time := "t1", price := 7 }] := by
  have h := C2_bounded_fifo.2.2.1 2 [sampleRecord, sampleRecord]
    { company := "Synopys", ticker := "SNPS", time := "t1", price := 7 }
    (by decide) (by decide)
  simpa using h

/-- Inversion of a successful per-company step: the produced reading is
for the processed company, its ticker is the resolver's answer, exactly
the two endpoint URLs were fetched, the fetch counter advanced by two,
the clock was read once, and the timestamp is that clock reading. -/
theorem processCompany_ok_inv {env : Env} {c : String} {k ni k2 n2 : Nat}
    {rd : StockRecord} {log : List String}
    (h : processCompany env c k ni = (Except.ok rd, log, k2, n2)) :
    rd.company = c ∧ lookup_ticker c = Except.ok rd.ticker ∧
      log = [stock_api_url rd.ticker, stock_api_url rd.ticker] ∧
      k2 = k + 2 ∧ n2 = ni + 1 ∧ rd.time = env.now ni := by
  unfold processCompany at h
  split at h
  · simp at h
  · rename_i tk heq
    simp only [get_stock_price, get_daily_high] at h
    split at h
    · simp at h
    · split at h
      · simp at h
      · simp only [Prod.mk.injEq, Except.ok.injEq] at h
        obtain ⟨hrd, hlog, hk, hn⟩ := h
        subst hrd hlog hk hn
        exact ⟨rfl, heq, rfl, rfl, rfl, rfl⟩

/-- C5: a round that completes without error appends to the buffer, in
order, exactly one reading per tracked company, in company-list order:
the final buffer is the fold of deque appends of a record list whose
companies are exactly the tracked list. -/
theorem C5_round_order_deterministic :
    ∀ (env : Env) (m : Nat) (cs : List String) (k ni k2 n2 : Nat)
      (buf buf2 : List StockRecord) (log : List String),
      processRound env m cs k ni buf = (Except.ok (), log, k2, n2, buf2) →
      ∃ rds : List StockRecord,
        buf2 = rds.foldl (dequeAppend m) buf ∧
        rds.map StockRecord.company = cs := by
  intro env m cs
  induction cs with
  | nil =>
    intro k ni k2 n2 buf buf2 log h
    simp only [processRound, Prod.mk.injEq, true_and] at h
    obtain ⟨rfl, rfl, rfl, rfl⟩ := h
    exact ⟨[], rfl, rfl⟩
  | cons c rest ih =>
    intro k ni k2 n2 buf buf2 log h
    simp only [processRound] at h
    rcases hpc : processCompany env c k ni with ⟨res, plog, pk, pni⟩
    cases res with
    | error e => simp [hpc] at h
    | ok rd =>
      simp only [hpc] at h
      rcases hpr : processRound env m rest pk pni (dequeAppend m buf rd)
        with ⟨r1, rlog, rk, rni, rbuf⟩
      simp only [hpr, Prod.mk.injEq] at h
      obtain ⟨h1, hlog, hk, hn, hbuf⟩ := h
      subst h1 hk hn hbuf
      obtain ⟨rds, hfold, hmap⟩ := ih _ _ _ _ _ _ _ hpr
      obtain ⟨hco, -, -, -, -, -⟩ := processCompany_ok_inv hpc
      exact ⟨rd :: rds, by simpa using hfold, by simp [hmap, hco]⟩

/-- Witness for C5 at a concrete error-free one-company round. -/
theorem C5_round_order_deterministic_witness :
    ∃ rds : List StockRecord,
      [({ company := "Cadence Design Systems", ticker := "CDNS",
          time := "t0", price := 101 } : StockRecord)]
        = rds.foldl (dequeAppend 2) []
      ∧ rds.map StockRecord.company = ["Cadence Design Systems"] :=
  C5_round_order_deterministic envOK 2 ["Cadence Design Systems"] 0 0 2 1
    [] [{ company := "Cadence Design Systems", ticker := "CDNS",
          time := "t0", price := 101 }]
    [stock_api_url "CDNS", stock_api_url "CDNS"] (by decide)

/-- C7: each of `get_stock_price` and `get_daily_high` performs exactly
one fetch per invocation, of the quote-options URL of its ticker; hence
a round that completes without error fetches exactly two URLs per
tracked company, both the same endpoint URL for that company's ticker,
in company order. -/
theorem C7_two_fetches_per_company :
    (∀ (env : Env) (k : Nat) (t : String),
      (get_stock_price env k t).2 = ([stock_api_url t], k + 1))
    ∧ (∀ (env : Env) (k : Nat) (t : String),
      (get_daily_high env k t).2 = ([stock_api_url t], k + 1))
    ∧ (∀ (env : Env) (m : Nat) (cs : List String) (k ni k2 n2 : Nat)
        (buf buf2 : List StockRecord) (log : List String),
        processRound env m cs k ni buf = (Except.ok (), log, k2, n2, buf2) →
        log = (roundTickers cs).flatMap
            (fun t => [stock_api_url t, stock_api_url t])
        ∧ log.length = 2 * cs.length) := by
  refine ⟨fun _ _ _ => rfl, fun _ _ _ => rfl, ?_⟩
  intro env m cs
  induction cs with
  | nil =>
    intro k ni k2 n2 buf buf2 log h
    simp only [processRound, Prod.mk.injEq, true_and] at h
    obtain ⟨rfl, rfl, rfl, rfl⟩ := h
    simp [roundTickers]
  | cons c rest ih =>
    intro k ni k2 n2 buf buf2 log h
    simp only [processRound] at h
    rcases hpc : processCompany env c k ni with ⟨res, plog, pk, pni⟩
    cases res with
    | error e => simp [hpc] at h
    | ok rd =>
      simp only [hpc] at h
      rcases hpr : processRound env m rest pk pni (dequeAppend m buf rd)
        with ⟨r1, rlog, rk, rni, rbuf⟩
      simp only [hpr, Prod.mk.injEq] at h
      obtain ⟨h1, hlog, hk, hn, hbuf⟩ := h
      subst h1 hk hn hbuf
      obtain ⟨hrest, hlen⟩ := ih _ _ _ _ _ _ _ hpr
      obtain ⟨-, hlt, hplog, -, -, -⟩ := processCompany_ok_inv hpc
      constructor
      · rw [← hlog, hplog, hrest]
        simp [roundTickers, List.filterMap_cons, hlt, Except.toOption]
      · rw [← hlog, hplog]
        simp only [List.length_append, List.length_cons, List.length_nil,
          hlen]
        omega

/-- Witness for C7 at a concrete error-free one-company round: exactly
the two identical endpoint URLs are fetched. -/
theorem C7_two_fetches_per_company_witness :
    ([stock_api_url "CDNS", stock_api_url "CDNS"] : List String)
      = (roundTickers ["Cadence Design Systems"]).flatMap
          (fun t => [stock_api_url t, stock_api_url t])
    ∧ ([stock_api_url "CDNS", stock_api_url "CDNS"] : List String).length
      = 2 * (["Cadence Design Systems"] : List String).length :=
  C7_two_fetches_per_company.2.2 envOK 2 ["Cadence Design Systems"] 0 0 2 1
    [] [{ company := "Cadence Design Systems", ticker := "CDNS",
          time := "t0", price := 101 }]
    [stock_api_url "CDNS", stock_api_url "CDNS"] (by decide)

/-- The loop completes at most as many rounds as it is asked to run. -/
theorem runRounds_roundsCompleted_le (env : Env) (m : Nat) (cs : List String) :
    ∀ (n : Nat) (s : LoopState),
      (runRounds env m cs n s).roundsCompleted ≤ s.roundsCompleted + n := by
  intro n
  induction n with
  | zero => intro s; simp [runRounds]
  | succ n ih =>
    intro s
    simp only [runRounds]
    split
    · simp
    · split
      · exact le_trans (ih _) (by simp; omega)
      · simp

/-- If the loop finishes with an empty error log, every requested round
completed its write. -/
theorem runRounds_errorLog_nil (env : Env) (m : Nat) (cs : List String) :
    ∀ (n : Nat) (s : LoopState),
      (runRounds env m cs n s).errorLog = [] →
      (runRounds env m cs n s).roundsCompleted = s.roundsCompleted + n := by
  intro n
  induction n with
  | zero => intro s _; simp [runRounds]
  | succ n ih =>
    intro s h
    simp only [runRounds] at h ⊢
    split
    · rename_i e heq
      simp [heq] at h
    · rename_i u heq
      simp only [heq] at h
      split
      · rename_i hper
        simp [hper] at h
        rw [ih _ h]
        show s.roundsCompleted + 1 + n = s.roundsCompleted + (n + 1)
        omega
      · rename_i hper
        simp [hper] at h

/-- C4: failure semantics.  First, the single top-level guard logs at
most one error over the whole multi-round run; second, when the resolver
fails for the next company the round aborts at once — no reading is
appended for that company (the buffer is returned unchanged) and no
fetch is issued; third, a round that raises makes the loop exit
immediately: the final state is the erroring state with exactly that one
error logged, the snapshot not rewritten, regardless of how many rounds
remained. -/
theorem C4_single_guard_fatal :
    (∀ (env : Env) (m : Nat) (cs : List String) (n : Nat) (s : LoopState),
      s.errorLog = [] → ((runRounds env m cs n s).errorLog).length ≤ 1)
    ∧ (∀ (env : Env) (m : Nat) (c : String) (rest : List String)
        (k ni : Nat) (buf : List StockRecord) (err : StockError),
        lookup_ticker c = Except.error err →
        processRound env m (c :: rest) k ni buf =
          (Except.error err, [], k, ni, buf))
    ∧ (∀ (env : Env) (m : Nat) (cs : List String) (s : LoopState)
        (e : StockError) (log : List String) (k2 n2 : Nat)
        (buf2 : List StockRecord) (n : Nat),
        processRound env m cs s.fetchIdx s.nowIdx s.buffer =
          (Except.error e, log, k2, n2, buf2) →
        runRounds env m cs (n + 1) s =
          { s with
            fetchIdx := k2
            nowIdx := n2
            buffer := buf2
            fetchLog := s.fetchLog ++ log
            errorLog := s.errorLog ++ [e] }) := by
  refine ⟨?_, ?_, ?_⟩
  · intro env m cs n
    induction n with
    | zero => intro s h; simp [runRounds, h]
    | succ n ih =>
      intro s h
      simp only [runRounds]
      split
      · simp [h]
      · split
        · exact ih _ (by simpa using h)
        · simp [h]
  · intro env m c rest k ni buf err h
    simp [processRound, processCompany, h]
  · intro env m cs s e log k2 n2 buf2 n h
    simp [runRounds, h]

/-- Witness for C4: the resolver miss on `Nonexistent Corp` aborts the
round with no reading appended and no fetch issued. -/
theorem C4_single_guard_fatal_witness :
    processRound envOK 100 ["Nonexistent Corp"] 0 0 [] =
      (Except.error (StockError.lookupFailure "Nonexistent Corp"),
       [], 0, 0, []) :=
  C4_single_guard_fatal.2.1 envOK 100 "Nonexistent Corp" [] 0 0 []
    (StockError.lookupFailure "Nonexistent Corp") (by decide)

/-- C8: the loop runs a fixed maximum of `num_updates = 100` rounds (the
same constant configured as the deque capacity): it never completes more
than `num_updates` rounds, an error-free run completes exactly
`num_updates` rounds, and on an unhandled round error it terminates
immediately — the result does not depend on how many rounds remained. -/
theorem C8_loop_terminates :
    num_updates = 100
    ∧ (∀ (env : Env) (existing : Option String),
        (update_csv_stock env existing).roundsCompleted ≤ num_updates)
    ∧ (∀ (env : Env) (existing : Option String),
        (update_csv_stock env existing).errorLog = [] →
        (update_csv_stock env existing).roundsCompleted = num_updates)
    ∧ (∀ (env : Env) (m : Nat) (cs : List String) (s : LoopState)
        (e : StockError) (log : List String) (k2 n2 : Nat)
        (buf2 : List StockRecord) (r1 r2 : Nat),
        processRound env m cs s.fetchIdx s.nowIdx s.buffer =
          (Except.error e, log, k2, n2, buf2) →
        runRounds env m cs (r1 + 1) s = runRounds env m cs (r2 + 1) s) := by
  refine ⟨rfl, ?_, ?_, ?_⟩
  · intro env existing
    have h := runRounds_roundsCompleted_le env num_updates companies
      num_updates (initialState existing)
    simpa [update_csv_stock, initialState] using h
  · intro env existing h
    have h2 := runRounds_errorLog_nil env num_updates companies
      num_updates (initialState existing) h
    simpa [update_csv_stock, initialState] using h2
  · intro env m cs s e log k2 n2 buf2 r1 r2 h
    simp [runRounds, h]

/-- Witness for C8: with one unknown company the run aborts in round 1,
and giving the loop one round or five more rounds yields the same final
state. -/
theorem C8_loop_terminates_witness :
    runRounds envOK 1 ["Nonexistent Corp"] 1 (initialState none) =
      runRounds envOK 1 ["Nonexistent Corp"] 5 (initialState none) :=
  C8_loop_terminates.2.2.2 envOK 1 ["Nonexistent Corp"] (initialState none)
    (StockError.lookupFailure "Nonexistent Corp") [] 0 0 [] 0 4 (by decide)

/-- C10: a snapshot file that already exists at startup is not
reinitialized: startup leaves its contents byte-for-byte unchanged, they
are still unchanged if the first round aborts before its write, and the
first completed round's write replaces them entirely with the serialized
buffer. -/
theorem C10_existing_file_not_reinitialized :
    (∀ c, (initialState (some c)).file = some c)
    ∧ (∀ (env : Env) (m : Nat) (cs : List String) (c : String) (n : Nat)
        (e : StockError) (log : List String) (k2 n2 : Nat)
        (buf2 : List StockRecord),
        processRound env m cs 0 0 [] = (Except.error e, log, k2, n2, buf2) →
        (runRounds env m cs (n + 1) (initialState (some c))).file = some c)
    ∧ (∀ (env : Env) (m : Nat) (cs : List String) (c : String)
        (log : List String) (k2 n2 : Nat) (buf2 : List StockRecord),
        env.persistOk 0 = true →
        processRound env m cs 0 0 [] = (Except.ok (), log, k2, n2, buf2) →
        (runRounds env m cs 1 (initialState (some c))).file =
          some (roundCsv buf2)) := by
  refine ⟨fun _ => rfl, ?_, ?_⟩
  · intro env m cs c n e log k2 n2 buf2 h
    simp [runRounds, initialState, h]
  · intro env m cs c log k2 n2 buf2 hper h
    simp [runRounds, initialState, h, hper, writeSnapshot]

/-- Witness for C10: an existing file `OLD` survives startup and is
replaced by the serialized buffer at the end of the first round. -/
theorem C10_existing_file_not_reinitialized_witness :
    (runRounds envOK 2 ["Cadence Design Systems"] 1
        (initialState (some "OLD"))).file =
      some (roundCsv [{ company := "Cadence Design Systems",
                        ticker := "CDNS", time := "t0", price := 101 }]) :=
  C10_existing_file_not_reinitialized.2.2 envOK 2 ["Cadence Design Systems"]
    "OLD" [stock_api_url "CDNS", stock_api_url "CDNS"] 2 1
    [{ company := "Cadence Design Systems", ticker := "CDNS",
       time := "t0", price := 101 }] rfl (by decide)

end ContinuousStock
